import Mathlib

/-!
Shallow embedding of the `serde_shade_nbt` crate (files `src/lib.rs`,
`src/error.rs`, `src/ser.rs`, `src/de.rs`).

Bytes are modelled as `Nat` (each in `0..256` where written by the code),
byte buffers as `List Nat`.  The serializer's sink is modelled as the
in-memory buffer used by `to_vec` (`Vec<u8>`), whose `write_all` always
succeeds and appends; the serializer state threads the buffer explicitly.
`todo!()` bodies in the source are modelled by the distinguished outcome
`Fail.panicked` (a Rust panic, distinct from every returned `Err` value).
-/

deriving instance DecidableEq for Except

namespace ShadeNBT

/-- The error enum of `src/error.rs`.  Payloads that no claim inspects
(`Message`'s text is kept; the wrapped `std::io::Error` and `mutf8` error
payloads are dropped) -/
inductive Error where
  | Message (s : String)
  | Eof
  | Io
  | StrLen (n : Nat)
  | SeqLen (n : Nat)
  | Mutf8
  | InvalidHeader
  | FieldInfoUnset
deriving DecidableEq

/-- Outcome of a call into the crate: either a returned `Result` error or a
panic (the `todo!()` macro unwinds). -/
inductive Fail where
  | err (e : Error)
  | panicked
deriving DecidableEq

/-- `k`-byte little-endian encoding of a natural number, as `to_le_bytes`
produces for an in-range value. -/
def natToLeBytes : Nat → Nat → List Nat
  | 0, _ => []
  | k + 1, n => n % 256 :: natToLeBytes k (n / 256)

def u16le (n : Nat) : List Nat := natToLeBytes 2 n

def u32le (n : Nat) : List Nat := natToLeBytes 4 n

def u64le (n : Nat) : List Nat := natToLeBytes 8 n

/-- `i32::to_le_bytes`: two's-complement little-endian bytes. -/
def i32le (x : Int) : List Nat := natToLeBytes 4 (x % (2 ^ 32 : Int)).toNat

/-- Rust `v as uN` bit-reinterpretation of a signed value. -/
def intAsUnsigned (w : Nat) (x : Int) : Nat := (x % (2 ^ w : Int)).toNat

/-- The `FieldInfo` enum of `src/ser.rs` (field names modelled as their byte
sequences, since only the byte length is consumed here). -/
inductive FieldInfo where
  | None
  | Root
  | Named (nm : List Nat)
  | InSeq (size : Option Int)
deriving DecidableEq

/-- `FieldInfo::write(&mut self, tag, w)` with an infallible (Vec) sink:
returns the `Result`, the field info left in `self`, and the sink contents.

Faithful to the source's control flow: the `u16::try_from` failure in the
`Named` arm is raised with `?` *inside* the `match`, which returns from the
whole function early, skipping the trailing `*self = FieldInfo::None;` —
so on a `StrLen` error the state stays `Named` and the tag byte has already
been written.  In the `InSeq(Some _)` arm the code sets `*size = None` but
the trailing unconditional reset then overwrites the whole value with
`FieldInfo::None`. -/
def FieldInfo.write (fi : FieldInfo) (tag : Nat) (w : List Nat) :
    Except Error Unit × FieldInfo × List Nat :=
  match fi with
  | .None => (Except.error Error.FieldInfoUnset, FieldInfo.None, w)
  | .Root => (Except.ok (), FieldInfo.None, w)
  | .InSeq size =>
    match size with
    | some x => (Except.ok (), FieldInfo.None, w ++ tag :: i32le x)
    | none => (Except.ok (), FieldInfo.None, w)
  | .Named nm =>
    if nm.length ≤ 65535 then
      (Except.ok (), FieldInfo.None, (w ++ [tag]) ++ u16le nm.length)
    else
      (Except.error (Error.StrLen nm.length), FieldInfo.Named nm, w ++ [tag])

/-- `Serializer<Vec<u8>>`: the output buffer and the field-info cell. -/
structure SerState where
  output : List Nat
  fieldInfo : FieldInfo
deriving DecidableEq

/-- The 7 bytes written by `Serializer::new`: 6-byte magic+version
`AD 4E 42 54 00 04` followed by the flags byte `0x80`. -/
def headerBytes : List Nat := [0xad, 0x4e, 0x42, 0x54, 0x00, 0x04, 0x80]

/-- `Serializer::new(Vec::new())`: writing to a `Vec` cannot fail, so the
construction always succeeds, with the header already in the buffer. -/
def Serializer.new : SerState := ⟨headerBytes, FieldInfo.Root⟩

/- The value shapes the claims exercise, mirroring the serde entry points
implemented in `src/ser.rs` (scalars, booleans, byte blobs, sequences,
structs) plus the 128-bit integers whose entry points are `todo!()`.
Struct field names are byte sequences (`&'static str` keys). -/
mutual
inductive Value where
  | vBool (b : Bool)
  | vU8 (n : Nat)
  | vU16 (n : Nat)
  | vU32 (n : Nat)
  | vU64 (n : Nat)
  | vI8 (x : Int)
  | vI16 (x : Int)
  | vI32 (x : Int)
  | vI64 (x : Int)
  | vI128 (x : Int)
  | vU128 (n : Nat)
  | vBytes (bs : List Nat)
  | vSeq (xs : ValueList)
  | vStruct (fs : FieldList)
inductive ValueList where
  | nil
  | cons (v : Value) (vs : ValueList)
inductive FieldList where
  | fnil
  | fcons (nm : List Nat) (v : Value) (fs : FieldList)
end

def ValueList.length : ValueList → Nat
  | .nil => 0
  | .cons _ vs => vs.length + 1

/-- The common body of `serialize_u8` .. `serialize_bytes`: discharge the
field info with the value's tag, then append the payload (the `?` after the
discharge skips the payload write on error). -/
def writeScalar (tag : Nat) (payload : List Nat) (s : SerState) :
    Except Fail Unit × SerState :=
  match FieldInfo.write s.fieldInfo tag s.output with
  | (Except.ok _, fi, out) => (Except.ok (), ⟨out ++ payload, fi⟩)
  | (Except.error e, fi, out) => (Except.error (Fail.err e), ⟨out, fi⟩)

/- `value.serialize(&mut serializer)` for the modelled shapes, following
`src/ser.rs`:
* signed integers forward to the unsigned entry point via `as`-casts;
* `bool` forwards to `serialize_u8(v.into())`;
* `serialize_i128`/`serialize_u128` are `todo!()` — they panic before
  touching the field info or the sink;
* `serialize_seq` discharges tag `0x09`, converts the length with
  `try_into::<i32>` (`SeqLen` on overflow), sets `InSeq(Some(len))`, then
  `SerializeSeq::serialize_element` serializes each element in turn and
  `end` returns `Ok(())`;
* `serialize_struct` discharges tag `0x0a`; each
  `SerializeStruct::serialize_field(key, value)` sets `Named(key)` then
  recurses; `end` appends the `0x00` terminator. -/
mutual
def serializeValue : Value → SerState → Except Fail Unit × SerState
  | Value.vBool b, s => writeScalar 0x01 [if b then 1 else 0] s
  | Value.vU8 n, s => writeScalar 0x01 [n % 256] s
  | Value.vU16 n, s => writeScalar 0x02 (u16le n) s
  | Value.vU32 n, s => writeScalar 0x03 (u32le n) s
  | Value.vU64 n, s => writeScalar 0x04 (u64le n) s
  | Value.vI8 x, s => writeScalar 0x01 [intAsUnsigned 8 x % 256] s
  | Value.vI16 x, s => writeScalar 0x02 (u16le (intAsUnsigned 16 x)) s
  | Value.vI32 x, s => writeScalar 0x03 (u32le (intAsUnsigned 32 x)) s
  | Value.vI64 x, s => writeScalar 0x04 (u64le (intAsUnsigned 64 x)) s
  | Value.vI128 _, s => (Except.error Fail.panicked, s)
  | Value.vU128 _, s => (Except.error Fail.panicked, s)
  | Value.vBytes bs, s => writeScalar 0x07 bs s
  | Value.vSeq xs, s =>
    match FieldInfo.write s.fieldInfo 0x09 s.output with
    | (Except.error e, fi, out) => (Except.error (Fail.err e), ⟨out, fi⟩)
    | (Except.ok _, fi, out) =>
      if xs.length ≤ 2147483647 then
        serializeElems xs ⟨out, FieldInfo.InSeq (some (xs.length : Int))⟩
      else
        (Except.error (Fail.err (Error.SeqLen xs.length)), ⟨out, fi⟩)
  | Value.vStruct fs, s =>
    match FieldInfo.write s.fieldInfo 0x0a s.output with
    | (Except.error e, fi, out) => (Except.error (Fail.err e), ⟨out, fi⟩)
    | (Except.ok _, fi, out) =>
      match serializeFields fs ⟨out, fi⟩ with
      | (Except.ok _, s2) => (Except.ok (), ⟨s2.output ++ [0x00], s2.fieldInfo⟩)
      | r => r

def serializeElems : ValueList → SerState → Except Fail Unit × SerState
  | ValueList.nil, s => (Except.ok (), s)
  | ValueList.cons v vs, s =>
    match serializeValue v s with
    | (Except.ok _, s1) => serializeElems vs s1
    | r => r

def serializeFields : FieldList → SerState → Except Fail Unit × SerState
  | FieldList.fnil, s => (Except.ok (), s)
  | FieldList.fcons nm v fs, s =>
    match serializeValue v ⟨s.output, FieldInfo.Named nm⟩ with
    | (Except.ok _, s1) => serializeFields fs s1
    | r => r
end

/-- `to_writer(w, value)` with a Vec-like sink, keeping the final sink
contents visible also on failure: `Serializer::new` writes the header,
then the value is serialized. -/
def to_writer_run (v : Value) : Except Fail Unit × SerState :=
  serializeValue v Serializer.new

/-- `to_vec(value)`: serializer over a fresh `Vec`, returning the buffer on
success. -/
def to_vec (v : Value) : Except Fail (List Nat) :=
  match to_writer_run v with
  | (Except.ok _, s) => Except.ok s.output
  | (Except.error e, _) => Except.error e

/-- The 6-byte magic+version constant checked by `Deserializer::new`. -/
def magic6 : List Nat := [0xAD, 0x4E, 0x42, 0x54, 0x00, 0x04]

/-- Deserializer state after a successful header read. -/
structure DeState where
  input : List Nat
  endianness : Bool
deriving DecidableEq

/-- `Deserializer::new`: `read_exact` of 7 bytes (an `io::Error`, wrapped as
`Error::Io`, when the slice holds fewer than 7 bytes), then the magic
comparison on the first 6 bytes, then the flags bit `buf[6] & 0x80`. -/
def Deserializer.new (input : List Nat) : Except Error DeState :=
  if input.length < 7 then Except.error Error.Io
  else if input.take 6 ≠ magic6 then Except.error Error.InvalidHeader
  else Except.ok ⟨input.drop 7, Nat.testBit (input.getD 6 0) 7⟩

/-- `from_slice::<u8>`: header via `Deserializer::new`, then serde calls
`deserialize_u8`, whose body in `src/de.rs` is `todo!()` — a panic. -/
def from_slice_u8 (input : List Nat) : Except Fail Nat :=
  match Deserializer.new input with
  | Except.error e => Except.error (Fail.err e)
  | Except.ok _ => Except.error Fail.panicked

/-- `from_slice::<S>` for a derived struct `S`: header via
`Deserializer::new`, then serde calls `deserialize_struct`, whose body in
`src/de.rs` is `todo!()` — a panic. -/
def from_slice_struct (input : List Nat) : Except Fail Unit :=
  match Deserializer.new input with
  | Except.error e => Except.error (Fail.err e)
  | Except.ok _ => Except.error Fail.panicked

/-- The sink only ever grows across a `FieldInfo::write` call: the resulting
buffer is the old buffer with some suffix appended. -/
theorem write_extends (fi : FieldInfo) (tag : Nat) (w : List Nat) :
    ∃ t, (FieldInfo.write fi tag w).2.2 = w ++ t := by
  cases fi with
  | None => exact ⟨[], by simp [FieldInfo.write]⟩
  | Root => exact ⟨[], by simp [FieldInfo.write]⟩
  | InSeq size =>
    cases size with
    | none => exact ⟨[], by simp [FieldInfo.write]⟩
    | some x => exact ⟨tag :: i32le x, by simp [FieldInfo.write]⟩
  | Named nm =>
    by_cases h : nm.length ≤ 65535
    · exact ⟨[tag] ++ u16le nm.length, by simp [FieldInfo.write, h]⟩
    · exact ⟨[tag], by simp [FieldInfo.write, h]⟩

/-- The sink only ever grows across a scalar write. -/
theorem writeScalar_extends (tag : Nat) (p : List Nat) (s : SerState) :
    ∃ t, ((writeScalar tag p s).2).output = s.output ++ t := by
  obtain ⟨t, ht⟩ := write_extends s.fieldInfo tag s.output
  rcases hw : FieldInfo.write s.fieldInfo tag s.output with ⟨r, fi, out⟩
  rw [hw] at ht
  simp only at ht
  cases r with
  | ok u => exact ⟨t ++ p, by simp [writeScalar, hw, ht]⟩
  | error e => exact ⟨t, by simp [writeScalar, hw, ht]⟩

/- The serializer only appends to the sink, whatever the outcome: the state
after serializing any value (or element list, or field list) holds the old
buffer plus a suffix.  Mutual structural induction over the value shape. -/
mutual
theorem serValue_extends (v : Value) (s : SerState) :
    ∃ t, ((serializeValue v s).2).output = s.output ++ t := by
  cases v with
  | vBool b => exact writeScalar_extends _ _ _
  | vU8 n => exact writeScalar_extends _ _ _
  | vU16 n => exact writeScalar_extends _ _ _
  | vU32 n => exact writeScalar_extends _ _ _
  | vU64 n => exact writeScalar_extends _ _ _
  | vI8 x => exact writeScalar_extends _ _ _
  | vI16 x => exact writeScalar_extends _ _ _
  | vI32 x => exact writeScalar_extends _ _ _
  | vI64 x => exact writeScalar_extends _ _ _
  | vI128 x => exact ⟨[], by simp [serializeValue]⟩
  | vU128 n => exact ⟨[], by simp [serializeValue]⟩
  | vBytes bs => exact writeScalar_extends _ _ _
  | vSeq xs =>
    obtain ⟨t1, h1⟩ := write_extends s.fieldInfo 0x09 s.output
    rcases hw : FieldInfo.write s.fieldInfo 0x09 s.output with ⟨r, fi, out⟩
    rw [hw] at h1
    simp only at h1
    cases r with
    | error e => exact ⟨t1, by simp [serializeValue, hw, h1]⟩
    | ok u =>
      subst h1
      by_cases hlen : xs.length ≤ 2147483647
      · obtain ⟨t2, h2⟩ :=
          serElems_extends xs ⟨s.output ++ t1, FieldInfo.InSeq (some (xs.length : Int))⟩
        exact ⟨t1 ++ t2, by simp [serializeValue, hw, hlen, h2, List.append_assoc]⟩
      · exact ⟨t1, by simp [serializeValue, hw, hlen]⟩
  | vStruct fs =>
    obtain ⟨t1, h1⟩ := write_extends s.fieldInfo 0x0a s.output
    rcases hw : FieldInfo.write s.fieldInfo 0x0a s.output with ⟨r, fi, out⟩
    rw [hw] at h1
    simp only at h1
    cases r with
    | error e => exact ⟨t1, by simp [serializeValue, hw, h1]⟩
    | ok u =>
      subst h1
      obtain ⟨t2, h2⟩ := serFields_extends fs ⟨s.output ++ t1, fi⟩
      rcases hf : serializeFields fs ⟨s.output ++ t1, fi⟩ with ⟨r2, s2⟩
      rw [hf] at h2
      simp only at h2
      cases r2 with
      | ok u2 =>
        exact ⟨t1 ++ t2 ++ [0], by simp [serializeValue, hw, hf, h2, List.append_assoc]⟩
      | error e2 =>
        exact ⟨t1 ++ t2, by simp [serializeValue, hw, hf, h2, List.append_assoc]⟩

theorem serElems_extends (xs : ValueList) (s : SerState) :
    ∃ t, ((serializeElems xs s).2).output = s.output ++ t := by
  cases xs with
  | nil => exact ⟨[], by simp [serializeElems]⟩
  | cons v vs =>
    obtain ⟨t1, h1⟩ := serValue_extends v s
    rcases hv : serializeValue v s with ⟨r, s1⟩
    rw [hv] at h1
    simp only at h1
    cases r with
    | ok u =>
      obtain ⟨t2, h2⟩ := serElems_extends vs s1
      exact ⟨t1 ++ t2, by simp [serializeElems, hv, h1, h2]⟩
    | error e => exact ⟨t1, by simp [serializeElems, hv, h1]⟩

theorem serFields_extends (fs : FieldList) (s : SerState) :
    ∃ t, ((serializeFields fs s).2).output = s.output ++ t := by
  cases fs with
  | fnil => exact ⟨[], by simp [serializeFields]⟩
  | fcons nm v gs =>
    obtain ⟨t1, h1⟩ := serValue_extends v ⟨s.output, FieldInfo.Named nm⟩
    rcases hv : serializeValue v ⟨s.output, FieldInfo.Named nm⟩ with ⟨r, s1⟩
    rw [hv] at h1
    simp only at h1
    cases r with
    | ok u =>
      obtain ⟨t2, h2⟩ := serFields_extends gs s1
      exact ⟨t1 ++ t2, by simp [serializeFields, hv, h1, h2]⟩
    | error e => exact ⟨t1, by simp [serializeFields, hv, h1]⟩
end

/-- A struct field name of 65536 bytes (all `0x78`), exceeding the `u16`
length budget by one. -/
def bigName : List Nat := List.replicate 65536 0x78

theorem bigName_length : bigName.length = 65536 := by
  rw [bigName, List.length_replicate]

/-- Discharging a `Named` obligation with an oversized name: the tag byte is
written, then the `u16::try_from` failure returns early with `StrLen`,
skipping both the length write and the trailing state reset. -/
theorem write_named_overflow (nm : List Nat) (tag : Nat) (w : List Nat)
    (h : ¬ nm.length ≤ 65535) :
    FieldInfo.write (FieldInfo.Named nm) tag w
      = (Except.error (Error.StrLen nm.length), FieldInfo.Named nm, w ++ [tag]) := by
  simp [FieldInfo.write, h]

/-- Running the encoder on a one-field struct whose field name is oversized:
the root compound discharge writes nothing, the field's scalar discharge
writes the tag byte and fails, and the failure aborts the struct without a
terminator. -/
theorem struct_oversized_field_run (nm : List Nat) (h : ¬ nm.length ≤ 65535) :
    to_writer_run (Value.vStruct (FieldList.fcons nm (Value.vU8 5) FieldList.fnil))
      = (Except.error (Fail.err (Error.StrLen nm.length)),
        ⟨headerBytes ++ [0x01], FieldInfo.Named nm⟩) := by
  simp [to_writer_run, Serializer.new, serializeValue, serializeFields, writeScalar,
    FieldInfo.write, h]

/-- The sequence `[1, 2, 3]` of 32-bit signed integers. -/
def seq123 : Value :=
  Value.vSeq (ValueList.cons (Value.vI32 1)
    (ValueList.cons (Value.vI32 2) (ValueList.cons (Value.vI32 3) ValueList.nil)))

/-- Claim C1: the round trip `from_slice(to_vec(V)) == Ok(V)` fails already
for the scalar `V = 5u8`: the encoder produces the header followed by the
payload byte, but decoding panics (every value-reading method of the
deserializer is `todo!()`), so the round trip never yields `Ok(5)`. -/
theorem C1_roundtrip_broken :
    to_vec (Value.vU8 5) = Except.ok (headerBytes ++ [5]) ∧
    from_slice_u8 (headerBytes ++ [5]) = Except.error Fail.panicked := by
  decide

/-- Claim C2: encoding the sequence `[1, 2, 3]` of 32-bit integers does not
succeed: the field context is reset to `None` (not `InSeq(None)`) after the
first element's discharge, so the second element fails with
`FieldInfoUnset`; moreover the top-level discharge under `Root` never wrote
the sequence tag `0x09`, so the partial output after the failure is the
header followed by `03 03 00 00 00 01 00 00 00` only. -/
theorem C2_seq_framing_broken :
    to_vec seq123 = Except.error (Fail.err Error.FieldInfoUnset) ∧
    (to_writer_run seq123).2.output
      = headerBytes ++ [0x03, 0x03, 0x00, 0x00, 0x00, 0x01, 0x00, 0x00, 0x00] := by
  decide

/-- Claim C3: encoding a record with one field named `"x"` (byte `0x78`)
holding `5u8` yields `tag(0x01) | len(0x0001 LE) | 0x05 | 0x00` after the
header — the name byte `0x78` is never written (the `Named` discharge
writes only tag and length, and no other code path writes the name). -/
theorem C3_name_bytes_missing :
    to_vec (Value.vStruct (FieldList.fcons [0x78] (Value.vU8 5) FieldList.fnil))
      = Except.ok (headerBytes ++ [0x01, 0x01, 0x00, 0x05, 0x00]) := by
  decide

/-- Claim C4: encoding an empty top-level record produces exactly the 8
bytes `AD 4E 42 54 00 04 80 00`: the 6-byte magic+version constant written
by `Serializer::new`, the flags byte `0x80`, and the `0x00` terminator,
with no compound tag for the root value (the `Root` discharge writes
nothing). -/
theorem C4_empty_struct_bytes :
    to_vec (Value.vStruct FieldList.fnil)
      = Except.ok [0xad, 0x4e, 0x42, 0x54, 0x00, 0x04, 0x80, 0x00] := by
  decide

/-- Claim C5, counterexample: encoding a `5u8` field under a 65536-byte name
does fail with `StrLen 65536`, but one byte — the tag `0x01` — has already
been written to the sink for that field, so the failure is not atomic. -/
theorem C5_counterexample :
    (to_writer_run (Value.vStruct
        (FieldList.fcons bigName (Value.vU8 5) FieldList.fnil))).1
      = Except.error (Fail.err (Error.StrLen 65536)) ∧
    (to_writer_run (Value.vStruct
        (FieldList.fcons bigName (Value.vU8 5) FieldList.fnil))).2.output
      = headerBytes ++ [0x01] := by
  have hlen := bigName_length
  have h := struct_oversized_field_run bigName (by omega)
  rw [h, hlen]
  exact ⟨rfl, rfl⟩

/-- Claim C5, amended: discharging a `Named` obligation whose name exceeds
65535 bytes fails with `StrLen(name.len())` after writing exactly one byte
— the tag — to the sink (the length check comes after the tag write), and
leaves the field context at `Named(name)` (the `?` early return skips the
reset). -/
theorem C5_amended (nm : List Nat) (tag : Nat) (w : List Nat)
    (h : 65535 < nm.length) :
    FieldInfo.write (FieldInfo.Named nm) tag w
      = (Except.error (Error.StrLen nm.length), FieldInfo.Named nm, w ++ [tag]) :=
  write_named_overflow nm tag w (Nat.not_le.mpr h)

/-- Claim C5, witness: the amended statement at the concrete 65536-byte
name, tag `0x01`, empty sink. -/
theorem C5_amended_witness :
    65535 < bigName.length ∧
    FieldInfo.write (FieldInfo.Named bigName) 0x01 []
      = (Except.error (Error.StrLen 65536), FieldInfo.Named bigName, [0x01]) := by
  have hlen := bigName_length
  refine ⟨by omega, ?_⟩
  have h := C5_amended bigName 0x01 [] (by omega)
  rw [h, hlen]
  rfl

/-- Claim C6: decoding a valid 7-byte header followed by the tag byte
`0x01` and no payload does not return `Error::Eof`: the header parse
succeeds and then `deserialize_struct` is `todo!()`, so the call panics. -/
theorem C6_truncated_input_panics :
    from_slice_struct (headerBytes ++ [0x01]) = Except.error Fail.panicked ∧
    from_slice_struct (headerBytes ++ [0x01])
      ≠ Except.error (Fail.err Error.Eof) := by
  decide

/-- Claim C7, counterexample: the 6-byte input `00 00 00 00 00 00` has its
first 6 bytes differing from the magic constant, yet decoding fails with
the I/O error from `read_exact` (fewer than 7 bytes available), not with
`InvalidHeader`. -/
theorem C7_counterexample :
    List.take 6 [0, 0, 0, 0, 0, 0] ≠ magic6 ∧
    from_slice_u8 [0, 0, 0, 0, 0, 0] = Except.error (Fail.err Error.Io) := by
  decide

/-- Claim C7, amended: for every input of at least 7 bytes whose first 6
bytes differ from the magic+version constant, decoding fails with
`InvalidHeader` regardless of the remaining bytes; since every value-reading
method of the deserializer panics, the `InvalidHeader` return (rather than a
panic) also shows the rejection happens before any value is read. -/
theorem C7_amended (input : List Nat) (h7 : 7 ≤ input.length)
    (hm : input.take 6 ≠ magic6) :
    from_slice_u8 input = Except.error (Fail.err Error.InvalidHeader) ∧
    from_slice_struct input = Except.error (Fail.err Error.InvalidHeader) := by
  have h1 : ¬ input.length < 7 := by omega
  constructor <;>
    simp [from_slice_u8, from_slice_struct, Deserializer.new, h1, hm]

/-- Claim C7, witness: the amended statement at the 7-byte all-zero input. -/
theorem C7_amended_witness :
    7 ≤ (List.replicate 7 0).length ∧
    List.take 6 (List.replicate 7 0) ≠ magic6 ∧
    from_slice_u8 (List.replicate 7 0)
      = Except.error (Fail.err Error.InvalidHeader) := by
  refine ⟨by decide, by decide, ?_⟩
  exact (C7_amended (List.replicate 7 0) (by decide) (by decide)).1

/-- Claim C8: encoding a 128-bit integer does not return a typed error:
`serialize_i128` forwards to `serialize_u128`, whose body is `todo!()`, so
both entry points panic (before touching the field context or the sink). -/
theorem C8_i128_panics :
    to_vec (Value.vI128 0) = Except.error Fail.panicked ∧
    to_vec (Value.vU128 0) = Except.error Fail.panicked := by
  decide

/-- Claim C9, counterexample: a discharge that fails the name-length check
does not leave the context at `None` — the `?` early return skips the
trailing reset, leaving it at `Named(name)`. -/
theorem C9_counterexample :
    (FieldInfo.write (FieldInfo.Named bigName) 0x01 []).2.1 ≠ FieldInfo.None := by
  have hlen := bigName_length
  rw [write_named_overflow bigName 0x01 [] (by omega)]
  simp

/-- Claim C9, amended: (a) every discharge either leaves the context at
`None`, or was a `Named` discharge with an oversized name that failed with
`StrLen` and left the context unchanged at `Named(name)`; (b) discharging
while the context is `None` fails with `FieldInfoUnset` and writes
nothing. -/
theorem C9_amended (fi : FieldInfo) (tag : Nat) (w : List Nat) :
    ((FieldInfo.write fi tag w).2.1 = FieldInfo.None ∨
      ∃ nm, fi = FieldInfo.Named nm ∧ 65535 < nm.length ∧
        (FieldInfo.write fi tag w).1 = Except.error (Error.StrLen nm.length) ∧
        (FieldInfo.write fi tag w).2.1 = FieldInfo.Named nm) ∧
    FieldInfo.write FieldInfo.None tag w
      = (Except.error Error.FieldInfoUnset, FieldInfo.None, w) := by
  refine ⟨?_, rfl⟩
  cases fi with
  | None => exact Or.inl rfl
  | Root => exact Or.inl rfl
  | InSeq size =>
    cases size with
    | none => exact Or.inl rfl
    | some x => exact Or.inl rfl
  | Named nm =>
    by_cases h : nm.length ≤ 65535
    · exact Or.inl (by simp [FieldInfo.write, h])
    · exact Or.inr ⟨nm, rfl, by omega, by simp [FieldInfo.write, h],
        by simp [FieldInfo.write, h]⟩

/-- Claim C10: `Serializer::new` puts the 7 header bytes into the sink
before the value is examined, and serialization only ever appends, so for
every value — including every value whose serialization fails or panics —
the final sink contents start with the 7 header bytes. -/
theorem C10_header_always_written (v : Value) :
    ((to_writer_run v).2).output.take 7 = headerBytes ∧
    ∃ t, ((to_writer_run v).2).output = headerBytes ++ t := by
  obtain ⟨t, ht⟩ := serValue_extends v Serializer.new
  have hout : ((to_writer_run v).2).output = headerBytes ++ t := by
    simpa [to_writer_run, Serializer.new] using ht
  refine ⟨?_, t, hout⟩
  rw [hout]
  rfl

end ShadeNBT
